import Mathlib

/-!
Shallow embedding of the derived-statistics and aggregation engine of
src/main.js (a d3-based data story over MODIS state/month records).

Numbers: JavaScript numbers are modelled as exact rationals (ℚ); the missing
value sentinel (null / undefined, produced by empty CSV cells) is modelled as
Option.none.  NaN never arises inside the model because every value entering
the engine is either missing or a finite rational.

The d3 v7 library functions that the engine is written in terms of (d3.min,
d3.max, d3.mean, d3.ticks, d3.rollup / d3.rollups, d3.scaleThreshold) and the
ECMAScript stable Array.prototype.sort are embedded below from their d3-array
3.2.x / d3-scale source semantics, because the repository's computations are
defined by calls to them.
-/

/-- One parsed CSV row of data/modis_all_years.csv as produced by the loader in
src/main.js (loadData, lines 124-133): state name, integer year and month, the
parsed date (represented by its numeric timestamp, which is all the engine ever
uses of it, via the unary plus coercion), and the four optional measurements.
Empty CSV cells parse to null, modelled as none. -/
structure Record where
  state : String
  year : Int
  month : Int
  dateMs : Int
  NDVI : Option ℚ
  LST_Day : Option ℚ
  LST_Night : Option ℚ
  ET : Option ℚ
deriving DecidableEq

/-- Dynamic field access d[cfg.field] for the four measurement columns; any
other string indexes an absent property, which in JavaScript is undefined. -/
def getField (d : Record) : String → Option ℚ
  | "NDVI" => d.NDVI
  | "LST_Day" => d.LST_Day
  | "LST_Night" => d.LST_Night
  | "ET" => d.ET
  | _ => none

/-- d3.min on a list of plain numbers (the call site in computeVarStats has
already filtered out null and NaN): the running minimum, undefined (none) on an
empty list. -/
def d3min (vals : List ℚ) : Option ℚ :=
  vals.foldl (fun acc v =>
    match acc with
    | none => some v
    | some m => some (min m v)) none

/-- d3.max, symmetric to d3.min. -/
def d3max (vals : List ℚ) : Option ℚ :=
  vals.foldl (fun acc v =>
    match acc with
    | none => some v
    | some m => some (max m v)) none

/-- One step of d3.mean's single-pass accumulation: valid (non-missing) values
bump the count and the running sum, missing values are skipped. -/
def meanStep {α : Type} (valueof : α → Option ℚ) (acc : ℕ × ℚ) (v : α) : ℕ × ℚ :=
  match valueof v with
  | some x => (acc.1 + 1, acc.2 + x)
  | none => acc

/-- d3.mean(values, valueof): sum of the valid values divided by their count,
undefined (none) when there is no valid value. -/
def d3mean {α : Type} (values : List α) (valueof : α → Option ℚ) : Option ℚ :=
  let cs := values.foldl (meanStep valueof) (0, 0)
  if cs.1 = 0 then none else some (cs.2 / (cs.1 : ℚ))

/-- The key sequence of a d3 InternMap grouping: each distinct key once, in
order of first encounter. -/
def firstKeys {κ : Type} [DecidableEq κ] (ks : List κ) : List κ :=
  ks.foldl (fun acc k => if k ∈ acc then acc else acc ++ [k]) []

/-- d3.rollup / d3.rollups: group data by key (groups in first-encounter key
order, each group keeping the original element order, i.e. exactly the elements
whose key matches), then reduce each group.  d3.rollup returns an InternMap and
d3.rollups the corresponding [key, value] entry list; both are modelled by the
entry list. -/
def d3rollup {α κ β : Type} [DecidableEq κ] [BEq κ]
    (data : List α) (reduce : List α → β) (key : α → κ) : List (κ × β) :=
  (firstKeys (data.map key)).map (fun k => (k, reduce (data.filter (fun d => key d == k))))

/-- Floor of a rational (fdiv of numerator by the positive denominator). -/
def ratFloor (q : ℚ) : ℤ := Int.fdiv q.num (q.den : ℤ)

/-- JavaScript Math.round: half-up rounding, i.e. floor(q + 1/2) (so -0.5
rounds to 0 and -1.5 to -1, matching Math.round's round-half-toward-positive
behaviour). -/
def jsRound (q : ℚ) : ℤ := ratFloor (q + 1 / 2)

/-- Fuel-driven computation of floor(log10 q) for q > 0: multiply small values
up and divide large values down by 10 until the value lands in [1, 10).  The
fuel used by floorLog10 is always sufficient because |log10 (n / d)| is at most
n + d. -/
def log10Fuel : ℕ → ℚ → ℤ
  | 0, _ => 0
  | fuel + 1, q =>
    if q < 1 then log10Fuel fuel (q * 10) - 1
    else if 10 ≤ q then log10Fuel fuel (q / 10) + 1
    else 0

/-- Math.floor(Math.log10(step)) for a positive rational step, computed
exactly. -/
def floorLog10 (q : ℚ) : ℤ := log10Fuel (q.num.natAbs + q.den + 1) q

/-- The step factor chosen by d3's tickSpec from the normalised error, which
lies in [1, 10): the comparisons against sqrt 50, sqrt 10 and sqrt 2 are
expressed by comparing the square of the (positive) error against 50, 10
and 2. -/
def tickFactor (error : ℚ) : ℚ :=
  if 50 ≤ error ^ 2 then 10
  else if 10 ≤ error ^ 2 then 5
  else if 2 ≤ error ^ 2 then 2
  else 1

/-- The core of d3-array 3.2.x tickSpec(start, stop, count) for start < stop:
returns (i1, i2, inc) where the ticks are i1..i2 times the increment; a
negative inc encodes division by -inc (used for fractional steps so tick
values stay exact). -/
def tickSpecCore (start stop : ℚ) (count : ℕ) : ℤ × ℤ × ℚ :=
  let step := (stop - start) / (count : ℚ)
  let power := floorLog10 step
  let error := step / (10 : ℚ) ^ power
  if power < 0 then
    let inc := (10 : ℚ) ^ (-power) / tickFactor error
    let i1 := jsRound (start * inc)
    let i2 := jsRound (stop * inc)
    let j1 := if (i1 : ℚ) / inc < start then i1 + 1 else i1
    let j2 := if stop < (i2 : ℚ) / inc then i2 - 1 else i2
    (j1, j2, -inc)
  else
    let inc := (10 : ℚ) ^ power * tickFactor error
    let i1 := jsRound (start / inc)
    let i2 := jsRound (stop / inc)
    let j1 := if (i1 : ℚ) * inc < start then i1 + 1 else i1
    let j2 := if stop < (i2 : ℚ) * inc then i2 - 1 else i2
    (j1, j2, inc)

/-- d3's tickSpec including its retry clause: when the computed range is empty
and 0.5 <= count < 2 (for a natural count: count = 1) it retries once with the
doubled count (the retry cannot trigger again since the new count is 2). -/
def tickSpec (start stop : ℚ) (count : ℕ) : ℤ × ℤ × ℚ :=
  let r := tickSpecCore start stop count
  if r.2.1 < r.1 ∧ count = 1 then tickSpecCore start stop 2 else r

/-- d3.ticks(start, stop, count) of d3-array 3.2.x, over exact rationals:
empty for count 0, the singleton [start] when start = stop, otherwise the
i1..i2 multiples (or fractions, for negative inc) of the chosen nice increment,
reversed when stop < start.  The call d3.ticks(undefined, undefined, 5) that
computeVarStats makes when a variable has no data propagates NaN through
tickSpec and returns [] through the !(i2 >= i1) guard; that argument pattern is
handled at the call site in computeStatsFor, which passes rationals here only
when both extrema exist. -/
def d3ticks (start stop : ℚ) (count : ℕ) : List ℚ :=
  if count = 0 then []
  else if start = stop then [start]
  else
    let rev := stop < start
    let spec := if rev then tickSpec stop start count else tickSpec start stop count
    let i1 := spec.1
    let i2 := spec.2.1
    let inc := spec.2.2
    if i2 < i1 then []
    else
      let n := (i2 - i1 + 1).toNat
      let ts := (List.range n).map (fun i =>
        if inc < 0 then ((i1 + i : ℤ) : ℚ) / (-inc) else ((i1 + i : ℤ) : ℚ) * inc)
      if rev then ts.reverse else ts

/-- d3.bisectRight on an ascending domain: the insertion point of x to the
right of any equal entries, i.e. the number of domain entries that are ≤ x. -/
def bisectRight (domain : List ℚ) (x : ℚ) : ℕ :=
  domain.countP (fun t => decide (t ≤ x))

/-- d3.scaleThreshold().domain(domain).range(range): look up the bin index of
x by bisecting the first min(domain.length, range.length - 1) thresholds, then
index into the range (an out-of-range index would read undefined in JS; the
default is never reached when range is one longer than domain). -/
def scaleThreshold (domain : List ℚ) (range : List String) (x : ℚ) : String :=
  let n := min domain.length (range.length - 1)
  range.getD (bisectRight (domain.take n) x) ""

/-- One entry of VAR_CONFIG (src/main.js lines 13-38): the CSV field selector
and the color-ramp category.  The display label and legend label fields are
presentation-only strings never read by the engine and are omitted. -/
structure VarConfig where
  field : String
  colorType : String
deriving DecidableEq

/-- VAR_CONFIG: the four tracked variables, in object-literal order. -/
def VAR_CONFIG : List (String × VarConfig) :=
  [("ndvi", ⟨"NDVI", "greens"⟩),
   ("lstDay", ⟨"LST_Day", "temp"⟩),
   ("lstNight", ⟨"LST_Night", "temp"⟩),
   ("et", ⟨"ET", "blues"⟩)]

/-- d3.schemeGreens[7] of d3-scale-chromatic. -/
def schemeGreens7 : List String :=
  ["#edf8e9", "#c7e9c0", "#a1d99b", "#74c476", "#41ab5d", "#238b45", "#005a32"]

/-- d3.schemeBlues[7] of d3-scale-chromatic. -/
def schemeBlues7 : List String :=
  ["#eff3ff", "#c6dbef", "#9ecae1", "#6baed6", "#4292c6", "#2171b5", "#084594"]

/-- d3.schemeGreys[7] of d3-scale-chromatic. -/
def schemeGreys7 : List String :=
  ["#f7f7f7", "#d9d9d9", "#bdbdbd", "#969696", "#737373", "#525252", "#252525"]

/-- The fixed blue-to-red temperature ramp (src/main.js lines 161-168). -/
def tempColors : List String :=
  ["#1d4ed8", "#2563eb", "#38bdf8", "#facc15", "#fb923c", "#ef4444"]

/-- The 6-color ramp chosen for a colorType tag (the if/else chain of
computeVarStats, lines 154-171; slice(1) is drop 1). -/
def colorsFor (colorType : String) : List String :=
  if colorType = "greens" then schemeGreens7.drop 1
  else if colorType = "blues" then schemeBlues7.drop 1
  else if colorType = "temp" then tempColors
  else schemeGreys7.drop 1

/-- The per-variable stats object stored in varStats[key] (src/main.js line
174).  The scale field of the JS object is the function
scaleThreshold thresholds colors and carries no extra data, so it is not
stored. -/
structure VariableStats where
  min : Option ℚ
  max : Option ℚ
  thresholds : List ℚ
  colors : List String
deriving DecidableEq

instance : Inhabited VariableStats := ⟨⟨none, none, [], []⟩⟩

/-- The body of computeVarStats (src/main.js lines 144-176) for one variable:
project rows to the configured field discarding missing values, take d3
extrema, cut 5 requested (not guaranteed) ticks between them, and attach the
color ramp.  When a variable has no valid values both extrema are undefined and
the JS call d3.ticks(undefined, undefined, 5) returns [] (NaN falls through
every tickSpec comparison and fails the i2 >= i1 guard); that case is the
second match arm. -/
def computeStatsFor (rows : List Record) (cfg : VarConfig) : VariableStats :=
  let vals := rows.filterMap (fun d => getField d cfg.field)
  let mn := d3min vals
  let mx := d3max vals
  let t := match mn, mx with
    | some a, some b => d3ticks a b 5
    | _, _ => []
  { min := mn, max := mx, thresholds := t, colors := colorsFor cfg.colorType }

/-- computeVarStats: the varStats table built once at load time, one entry per
VAR_CONFIG key. -/
def computeVarStats (rows : List Record) : List (String × VariableStats) :=
  VAR_CONFIG.map (fun p => (p.1, computeStatsFor rows p.2))

/-- The threshold classifier stats.scale built by computeVarStats (line 173). -/
def classify (s : VariableStats) (x : ℚ) : String :=
  scaleThreshold s.thresholds s.colors x

/-- The valuesByState rollup of updateMap (src/main.js lines 261-267): filter
to the exact year and month, group by state, mean-reduce each group on the
selected field. -/
def valuesByState (rows : List Record) (field : String) (year month : Int) :
    List (String × Option ℚ) :=
  d3rollup (rows.filter (fun d => d.year == year && d.month == month))
    (fun v => d3mean v (fun d => getField d field))
    (fun d => d.state)

/-- One point of the seasonal series: the group's date key and the mean value
(still optional before the validity filter). -/
structure SeriesPoint where
  dateMs : Int
  value : Option ℚ
deriving DecidableEq

/-- The comparator a.date - b.date of buildSeriesForState's sort: ascending
date order. -/
def seriesLE (a b : SeriesPoint) : Prop := a.dateMs ≤ b.dateMs

instance : DecidableRel seriesLE := fun a b => Int.decLe a.dateMs b.dateMs

instance : IsTotal SeriesPoint seriesLE := ⟨fun _ _ => Int.le_total _ _⟩

instance : IsTrans SeriesPoint seriesLE := ⟨fun _ _ _ h1 h2 => le_trans h1 h2⟩

/-- The state filter of buildSeriesForState (lines 385-387): keep records of
the named state, or everything when the filter is null. -/
def statePredicate (stateName : Option String) (d : Record) : Bool :=
  match stateName with
  | some s => d.state == s
  | none => true

/-- buildSeriesForState (src/main.js lines 381-402), parametrised by the field
selector that the source reads from the module-level currentVar: filter by
state, group by numeric date key with mean reduction, keep only points whose
mean is defined, and sort ascending by date.  Array.prototype.sort is a stable
sort and is modelled by insertion sort, which is also stable. -/
def buildSeriesForState (rows : List Record) (field : String) (stateName : Option String) :
    List SeriesPoint :=
  let filtered := rows.filter (statePredicate stateName)
  let byDate := (d3rollup filtered (fun v => d3mean v (fun d => getField d field))
      (fun d => d.dateMs)).map (fun p => ({ dateMs := p.1, value := p.2 } : SeriesPoint))
  List.insertionSort seriesLE (byDate.filter (fun d => d.value.isSome))

/-- A record store whose NDVI value multiset is [0.1, 0.5, 0.9] (the worked
example of the spec); the other variables have no data. -/
def rowsNdvi3 : List Record :=
  [⟨"CA", 2020, 1, 0, some (1/10), none, none, none⟩,
   ⟨"CA", 2020, 2, 1, some (1/2), none, none, none⟩,
   ⟨"CA", 2020, 3, 2, some (9/10), none, none, none⟩]

/-- A record store in which every measurement of every record is missing. -/
def rowsAllMissing : List Record :=
  [⟨"CA", 2020, 1, 0, none, none, none, none⟩]

/-- A store with a single Nevada record for 2020-03 whose NDVI is missing. -/
def rowsNevada : List Record :=
  [⟨"Nevada", 2020, 3, 0, none, none, none, none⟩]

/-- The three-record end-to-end example store of the spec. -/
def rowsCANY : List Record :=
  [⟨"CA", 2020, 1, 0, some (2/10), none, none, none⟩,
   ⟨"CA", 2020, 1, 0, some (4/10), none, none, none⟩,
   ⟨"NY", 2020, 1, 0, some (9/10), none, none, none⟩]

/-- A store whose single (CA, 2020, 1) group carries the NDVI values
[5, missing, 7]. -/
def rowsMeanExample : List Record :=
  [⟨"CA", 2020, 1, 0, some 5, none, none, none⟩,
   ⟨"CA", 2020, 1, 0, none, none, none, none⟩,
   ⟨"CA", 2020, 1, 0, some 7, none, none, none⟩]

/-- A store whose January 2020 date group (key 10) has only a missing NDVI
value, next to a valid February group (key 20). -/
def rowsDropExample : List Record :=
  [⟨"CA", 2020, 1, 10, none, none, none, none⟩,
   ⟨"CA", 2020, 2, 20, some 1, none, none, none⟩]

/-- d3.mean's accumulator over a list equals the count and sum of its valid
values, shifted by the starting accumulator. -/
theorem foldl_meanStep {α : Type} (valueof : α → Option ℚ) :
    ∀ (values : List α) (c : ℕ) (s : ℚ),
      values.foldl (meanStep valueof) (c, s) =
        (c + (values.filterMap valueof).length, s + (values.filterMap valueof).sum) := by
  intro values
  induction values with
  | nil => intro c s; simp
  | cons a l ih =>
    intro c s
    cases h : valueof a with
    | none => simp [meanStep, h, ih]
    | some x =>
      simp only [List.foldl_cons, meanStep, h, ih, List.filterMap_cons, List.length_cons,
        List.sum_cons]
      rw [Prod.mk.injEq]
      exact ⟨by omega, by ring⟩

/-- d3.mean of a group with no valid value is undefined. -/
theorem d3mean_eq_none {α : Type} (values : List α) (valueof : α → Option ℚ)
    (h : values.filterMap valueof = []) : d3mean values valueof = none := by
  have hf := foldl_meanStep valueof values 0 0
  simp only [d3mean, hf]
  simp [h]

/-- d3.mean of a group with at least one valid value is the sum of the valid
values divided by their number. -/
theorem d3mean_eq_some {α : Type} (values : List α) (valueof : α → Option ℚ)
    (h : values.filterMap valueof ≠ []) :
    d3mean values valueof =
      some ((values.filterMap valueof).sum / ((values.filterMap valueof).length : ℚ)) := by
  have hf := foldl_meanStep valueof values 0 0
  have hlen : (values.filterMap valueof).length ≠ 0 := by
    simpa [List.length_eq_zero] using h
  simp only [d3mean, hf]
  simp [hlen]

theorem mem_foldl_firstKeys {κ : Type} [DecidableEq κ] (k : κ) :
    ∀ (ks acc : List κ),
      k ∈ ks.foldl (fun acc j => if j ∈ acc then acc else acc ++ [j]) acc ↔
        k ∈ acc ∨ k ∈ ks := by
  intro ks
  induction ks with
  | nil => simp
  | cons a t ih =>
    intro acc
    by_cases ha : a ∈ acc
    · simp only [List.foldl_cons, if_pos ha, ih, List.mem_cons]
      constructor
      · rintro (h | h)
        · exact Or.inl h
        · exact Or.inr (Or.inr h)
      · rintro (h | rfl | h)
        · exact Or.inl h
        · exact Or.inl ha
        · exact Or.inr h
    · simp only [List.foldl_cons, if_neg ha, ih, List.mem_append, List.mem_singleton,
        List.mem_cons]
      tauto

/-- Membership in the first-encounter key sequence is membership in the key
list. -/
theorem mem_firstKeys {κ : Type} [DecidableEq κ] (k : κ) (ks : List κ) :
    k ∈ firstKeys ks ↔ k ∈ ks := by
  simpa [firstKeys] using mem_foldl_firstKeys k ks []

theorem nodup_foldl_firstKeys {κ : Type} [DecidableEq κ] :
    ∀ (ks acc : List κ), acc.Nodup →
      (ks.foldl (fun acc j => if j ∈ acc then acc else acc ++ [j]) acc).Nodup := by
  intro ks
  induction ks with
  | nil => intro acc h; simpa using h
  | cons a t ih =>
    intro acc hacc
    by_cases ha : a ∈ acc
    · simpa [List.foldl_cons, if_pos ha] using ih acc hacc
    · simp only [List.foldl_cons]
      rw [if_neg ha]
      exact ih _ (by simp [List.nodup_append, hacc, ha])

/-- The first-encounter key sequence has no duplicates. -/
theorem nodup_firstKeys {κ : Type} [DecidableEq κ] (ks : List κ) : (firstKeys ks).Nodup :=
  nodup_foldl_firstKeys ks [] List.nodup_nil

theorem lookup_map_key {κ β : Type} [BEq κ] [LawfulBEq κ] (f : κ → β) (k : κ) :
    ∀ ks : List κ, k ∈ ks →
      List.lookup k (ks.map (fun j => (j, f j))) = some (f k) := by
  intro ks
  induction ks with
  | nil => intro h; simp at h
  | cons a t ih =>
    intro hk
    by_cases h : k = a
    · subst h
      simp [List.lookup]
    · have : k ∈ t := by
        rcases List.mem_cons.mp hk with h' | h'
        · exact absurd h' h
        · exact h'
      have hba : (k == a) = false := beq_false_of_ne h
      simp [List.lookup, hba, ih this]

/-- Looking up any key that occurs in the data inside a d3.rollup result gives
the reduction of exactly that key's group: the matching records in original
order. -/
theorem d3rollup_lookup {α κ β : Type} [DecidableEq κ] [BEq κ] [LawfulBEq κ]
    (data : List α) (reduce : List α → β) (key : α → κ) (k : κ)
    (hk : k ∈ data.map key) :
    List.lookup k (d3rollup data reduce key) =
      some (reduce (data.filter (fun d => key d == k))) := by
  have hk' : k ∈ firstKeys (data.map key) := (mem_firstKeys _ _).mpr hk
  simpa [d3rollup] using
    lookup_map_key (fun j => reduce (data.filter (fun d => key d == j))) k _ hk'

/-- Every entry of a d3.rollup result is the reduction of the group of some key
occurring in the data. -/
theorem d3rollup_mem {α κ β : Type} [DecidableEq κ] [BEq κ]
    (data : List α) (reduce : List α → β) (key : α → κ) (p : κ × β)
    (hp : p ∈ d3rollup data reduce key) :
    p.1 ∈ data.map key ∧ p.2 = reduce (data.filter (fun d => key d == p.1)) := by
  rcases List.mem_map.mp hp with ⟨k, hk, rfl⟩
  exact ⟨(mem_firstKeys _ _).mp hk, rfl⟩

/-- The key column of a d3.rollup result is the first-encounter key
sequence. -/
theorem d3rollup_keys {α κ β : Type} [DecidableEq κ] [BEq κ]
    (data : List α) (reduce : List α → β) (key : α → κ) :
    (d3rollup data reduce key).map Prod.fst = firstKeys (data.map key) := by
  unfold d3rollup
  rw [List.map_map]
  exact List.map_id _

/-- If the first i entries of a list are all ≤ x and every later entry
exceeds x, then exactly i entries are ≤ x. -/
theorem countP_le_partition (x : ℚ) :
    ∀ (l : List ℚ) (i : ℕ), i ≤ l.length →
      (∀ t ∈ l.take i, t ≤ x) → (∀ t ∈ l.drop i, x < t) →
      l.countP (fun t => decide (t ≤ x)) = i := by
  intro l
  induction l with
  | nil =>
    intro i hi _ _
    have : i = 0 := Nat.le_zero.mp (by simpa using hi)
    simp [this]
  | cons a l ih =>
    intro i hi hlo hhi
    cases i with
    | zero =>
      rw [List.countP_eq_zero]
      intro t ht
      simp only [decide_eq_true_eq]
      exact not_le.mpr (hhi t (by simpa using ht))
    | succ i =>
      have ha : a ≤ x := hlo a (by simp)
      have hrec := ih i (by simpa using hi)
        (fun t ht => hlo t (by simpa using List.mem_cons_of_mem a ht))
        (fun t ht => hhi t (by simpa using ht))
      rw [List.countP_cons]
      simp [ha, hrec]

/-- Sorting a list of series points whose date keys are pairwise distinct by
the ascending-date comparator yields a strictly increasing date column. -/
theorem sorted_dates_of_insertionSort (pre : List SeriesPoint)
    (hnd : (pre.map SeriesPoint.dateMs).Nodup) :
    List.Sorted (fun a b => a < b)
      ((List.insertionSort seriesLE pre).map SeriesPoint.dateMs) := by
  have hperm : List.Perm (List.insertionSort seriesLE pre) pre :=
    List.perm_insertionSort _ _
  have hsorted : List.Sorted seriesLE (List.insertionSort seriesLE pre) :=
    List.sorted_insertionSort _ _
  have hnd' : ((List.insertionSort seriesLE pre).map SeriesPoint.dateMs).Nodup :=
    ((hperm.map SeriesPoint.dateMs).nodup_iff).mpr hnd
  have h2 : (List.insertionSort seriesLE pre).Pairwise
      (fun a b => a.dateMs ≠ b.dateMs) := List.pairwise_map.mp hnd'
  have hpair := List.Pairwise.and hsorted h2
  rw [List.Sorted, List.pairwise_map]
  exact hpair.imp (fun h => lt_of_le_of_ne h.1 h.2)

/-- C1: evaluation of computeVarStats at the record store whose NDVI values
are [0.1, 0.5, 0.9], the worked example of the spec.  The claim (and the
comment above the d3.ticks call in the source: a 6-bin threshold needs 5
internal cut points) requires exactly 5 thresholds, but d3.ticks(0.1, 0.9, 5)
only aims at about 5 ticks and here returns the 4 nice values
[0.2, 0.4, 0.6, 0.8]. -/
theorem computeVarStats_ndvi3_four_thresholds :
    List.lookup "ndvi" (computeVarStats rowsNdvi3) =
      some { min := some (1/10), max := some (9/10),
             thresholds := [1/5, 2/5, 3/5, 4/5], colors := schemeGreens7.drop 1 } ∧
    (List.lookup "ndvi" (computeVarStats rowsNdvi3)).map
      (fun s => s.thresholds.length) = some 4 := by
  with_unfolding_all decide

/-- C2 counterexample: in the classifier that computeVarStats builds for the
store rowsNdvi3, the value 0.2 equals thresholds[0], yet it is classified to
colors[1] and not to colors[0], refuting the claim that v ≤ thresholds[0]
yields colors[0] (boundary values fall in the upper bin, not the lower). -/
theorem classify_boundary_not_lower_bin :
    ((List.lookup "ndvi" (computeVarStats rowsNdvi3)).getD default).thresholds.getD 0 0 = 1/5 ∧
    ((List.lookup "ndvi" (computeVarStats rowsNdvi3)).getD default).colors.getD 0 "" =
      "#c7e9c0" ∧
    classify ((List.lookup "ndvi" (computeVarStats rowsNdvi3)).getD default) (1/5) =
      "#a1d99b" ∧
    ((List.lookup "ndvi" (computeVarStats rowsNdvi3)).getD default).colors.getD 1 "" =
      "#a1d99b" ∧
    ("#a1d99b" : String) ≠ "#c7e9c0" := by
  with_unfolding_all decide

/-- C2 (amended): the threshold classifier places a value v in bin i (color i)
exactly when the first i thresholds are ≤ v and every later threshold exceeds
v; equivalently v < thresholds[0] gives colors[0], thresholds[i-1] ≤ v <
thresholds[i] gives colors[i], and v at or above the last threshold gives the
last color — a value equal to a threshold falls in the upper bin. -/
theorem scaleThreshold_bin (dom : List ℚ) (colors : List String) (x : ℚ) (i : ℕ)
    (hlen : dom.length < colors.length)
    (hi : i ≤ dom.length)
    (hlo : ∀ t ∈ dom.take i, t ≤ x)
    (hhi : ∀ t ∈ dom.drop i, x < t) :
    scaleThreshold dom colors x = colors.getD i "" := by
  have hn : min dom.length (colors.length - 1) = dom.length := by omega
  simp only [scaleThreshold, hn, List.take_length, bisectRight]
  rw [countP_le_partition x dom i hi hlo hhi]

/-- C2 witness: with thresholds [1, 2] and colors a, b, c, the boundary value
1 lands in bin 1 (the upper side of the first threshold). -/
theorem scaleThreshold_bin_witness :
    scaleThreshold [1, 2] ["a", "b", "c"] 1 = "b" :=
  scaleThreshold_bin [1, 2] ["a", "b", "c"] 1 1 (by with_unfolding_all decide)
    (by with_unfolding_all decide) (by with_unfolding_all decide)
    (by with_unfolding_all decide)

/-- C3 counterexample: on a store where every NDVI value is missing,
computeVarStats still stores a stats object for ndvi (with undefined extrema
and an empty thresholds list) — the varStats entry is not null/undefined,
refuting the claimed signalling convention. -/
theorem computeVarStats_all_missing_not_null :
    List.lookup "ndvi" (computeVarStats rowsAllMissing) ≠ none ∧
    List.lookup "ndvi" (computeVarStats rowsAllMissing) =
      some { min := none, max := none, thresholds := [],
             colors := schemeGreens7.drop 1 } := by
  with_unfolding_all decide

/-- C3 (amended): when every value of a configured variable is missing,
computeVarStats produces for that variable a stats object whose min and max
are undefined (none) and whose thresholds list is empty — so no min > max
between numbers and no NaN thresholds are ever produced — rather than a
null/undefined stats entry. -/
theorem computeVarStats_no_data (rows : List Record) (key : String) (cfg : VarConfig)
    (hmem : (key, cfg) ∈ VAR_CONFIG)
    (hmiss : rows.filterMap (fun d => getField d cfg.field) = []) :
    List.lookup key (computeVarStats rows) =
      some { min := none, max := none, thresholds := [],
             colors := colorsFor cfg.colorType } := by
  have hstats : computeStatsFor rows cfg =
      { min := none, max := none, thresholds := [],
        colors := colorsFor cfg.colorType } := by
    unfold computeStatsFor
    rw [hmiss]
    rfl
  fin_cases hmem <;> simp [computeVarStats, VAR_CONFIG, hstats, List.lookup]

/-- C3 witness: the all-missing store instantiates the amended statement. -/
theorem computeVarStats_no_data_witness :
    List.lookup "ndvi" (computeVarStats rowsAllMissing) =
      some { min := none, max := none, thresholds := [],
             colors := colorsFor "greens" } :=
  computeVarStats_no_data rowsAllMissing "ndvi" ⟨"NDVI", "greens"⟩
    (by with_unfolding_all decide) (by with_unfolding_all decide)

/-- C4 counterexample: a Nevada record exists for 2020-03 but its NDVI is
missing; the valuesByState rollup nevertheless contains an entry for Nevada
(with undefined value), refuting the claim that such a state is absent from
the output mapping. -/
theorem valuesByState_nevada_entry_present :
    valuesByState rowsNevada "NDVI" 2020 3 = [("Nevada", none)] := by
  with_unfolding_all decide

/-- C4 (amended): a state whose (year, month) group exists but has zero
non-missing values for the selected field appears in the valueByState mapping
as an entry with undefined value (none) — never as 0 — which the consumer's
null check then treats like an absent state. -/
theorem valuesByState_all_missing_entry (rows : List Record) (field : String) (y m : Int)
    (st : String)
    (hne : (rows.filter (fun d => d.year == y && d.month == m)).filter
        (fun d => d.state == st) ≠ [])
    (hmiss : ((rows.filter (fun d => d.year == y && d.month == m)).filter
        (fun d => d.state == st)).filterMap (fun d => getField d field) = []) :
    List.lookup st (valuesByState rows field y m) = some none := by
  obtain ⟨r, hr⟩ := List.exists_mem_of_ne_nil _ hne
  have hr' := List.mem_filter.mp hr
  have hst : st ∈ (rows.filter (fun d => d.year == y && d.month == m)).map
      (fun d => d.state) :=
    List.mem_map.mpr ⟨r, hr'.1, beq_iff_eq.mp hr'.2⟩
  have hlk := d3rollup_lookup (rows.filter (fun d => d.year == y && d.month == m))
    (fun v => d3mean v (fun d => getField d field)) (fun d => d.state) st hst
  unfold valuesByState
  rw [hlk]
  have hm := d3mean_eq_none _ (fun d => getField d field) hmiss
  simpa using hm

/-- C4 witness: the Nevada store instantiates the amended statement. -/
theorem valuesByState_all_missing_entry_witness :
    List.lookup "Nevada" (valuesByState rowsNevada "NDVI" 2020 3) = some none :=
  valuesByState_all_missing_entry rowsNevada "NDVI" 2020 3 "Nevada"
    (by with_unfolding_all decide) (by with_unfolding_all decide)

/-- C5: for every group the aggregator forms (here: the records of one state
in the selected year and month), the reduced value is the arithmetic mean of
the group's non-missing values only — their sum divided by their count,
missing values excluded from both. -/
theorem valuesByState_group_mean (rows : List Record) (field : String) (y m : Int)
    (st : String)
    (hval : ((rows.filter (fun d => d.year == y && d.month == m)).filter
        (fun d => d.state == st)).filterMap (fun d => getField d field) ≠ []) :
    List.lookup st (valuesByState rows field y m) =
      some (some ((((rows.filter (fun d => d.year == y && d.month == m)).filter
            (fun d => d.state == st)).filterMap (fun d => getField d field)).sum /
          ((((rows.filter (fun d => d.year == y && d.month == m)).filter
            (fun d => d.state == st)).filterMap (fun d => getField d field)).length : ℚ))) := by
  have hne : (rows.filter (fun d => d.year == y && d.month == m)).filter
      (fun d => d.state == st) ≠ [] := by
    intro hnil
    exact hval (by simp [hnil])
  obtain ⟨r, hr⟩ := List.exists_mem_of_ne_nil _ hne
  have hr' := List.mem_filter.mp hr
  have hst : st ∈ (rows.filter (fun d => d.year == y && d.month == m)).map
      (fun d => d.state) :=
    List.mem_map.mpr ⟨r, hr'.1, beq_iff_eq.mp hr'.2⟩
  have hlk := d3rollup_lookup (rows.filter (fun d => d.year == y && d.month == m))
    (fun v => d3mean v (fun d => getField d field)) (fun d => d.state) st hst
  unfold valuesByState
  rw [hlk]
  have hm := d3mean_eq_some _ (fun d => getField d field) hval
  simpa using hm

/-- C5 witness: a group with values [5, missing, 7] reduces to mean 6. -/
theorem valuesByState_group_mean_witness :
    List.lookup "CA" (valuesByState rowsMeanExample "NDVI" 2020 1) = some (some 6) := by
  rw [valuesByState_group_mean rowsMeanExample "NDVI" 2020 1 "CA"
    (by with_unfolding_all decide)]
  with_unfolding_all decide

/-- C6: a date group with zero non-missing values for the selected field is
dropped entirely from the seasonal series: its date never occurs among the
output points. -/
theorem buildSeriesForState_drops_empty_group (rows : List Record) (field : String)
    (stateName : Option String) (dm : Int)
    (hmiss : ((rows.filter (statePredicate stateName)).filter
        (fun d => d.dateMs == dm)).filterMap (fun d => getField d field) = []) :
    dm ∉ (buildSeriesForState rows field stateName).map SeriesPoint.dateMs := by
  intro hmem
  obtain ⟨p, hp, hpd⟩ := List.mem_map.mp hmem
  have hp' : p ∈ ((d3rollup (rows.filter (statePredicate stateName))
      (fun v => d3mean v (fun d => getField d field)) (fun d => d.dateMs)).map
      (fun q => ({ dateMs := q.1, value := q.2 } : SeriesPoint))).filter
      (fun d => d.value.isSome) := by
    simpa [buildSeriesForState] using hp
  have hp2 := List.mem_filter.mp hp'
  obtain ⟨q, hq, hqe⟩ := List.mem_map.mp hp2.1
  have hqm := d3rollup_mem _ _ _ q hq
  have hq1 : q.1 = dm := by
    rw [← hqe] at hpd
    simpa using hpd
  have hqv : q.2 = none := by
    rw [hqm.2, hq1]
    exact d3mean_eq_none _ _ hmiss
  have : p.value.isSome := hp2.2
  rw [← hqe] at this
  simp [hqv] at this

/-- C6 witness: the January 2020 group of rowsDropExample has only a missing
NDVI value and its date key 10 is absent from the series. -/
theorem buildSeriesForState_drops_empty_group_witness :
    (10 : Int) ∉ (buildSeriesForState rowsDropExample "NDVI" none).map SeriesPoint.dateMs :=
  buildSeriesForState_drops_empty_group rowsDropExample "NDVI" none 10
    (by with_unfolding_all decide)

/-- C7: for every record store and every state filter, the seasonal series is
sorted strictly ascending by date — in particular no two points share a
date. -/
theorem buildSeriesForState_sorted_nodup (rows : List Record) (field : String)
    (stateName : Option String) :
    List.Sorted (fun a b => a < b)
      ((buildSeriesForState rows field stateName).map SeriesPoint.dateMs) := by
  have hnd : (((d3rollup (rows.filter (statePredicate stateName))
      (fun v => d3mean v (fun d => getField d field)) (fun d => d.dateMs)).map
      (fun q => ({ dateMs := q.1, value := q.2 } : SeriesPoint))).filter
      (fun d => d.value.isSome)).map SeriesPoint.dateMs |>.Nodup := by
    have hkeys : ((d3rollup (rows.filter (statePredicate stateName))
        (fun v => d3mean v (fun d => getField d field)) (fun d => d.dateMs)).map
        (fun q => ({ dateMs := q.1, value := q.2 } : SeriesPoint))).map
        SeriesPoint.dateMs = firstKeys ((rows.filter (statePredicate stateName)).map
        (fun d => d.dateMs)) := by
      rw [List.map_map]
      exact d3rollup_keys _ _ _
    have hbd : (((d3rollup (rows.filter (statePredicate stateName))
        (fun v => d3mean v (fun d => getField d field)) (fun d => d.dateMs)).map
        (fun q => ({ dateMs := q.1, value := q.2 } : SeriesPoint))).map
        SeriesPoint.dateMs).Nodup := by
      rw [hkeys]
      exact nodup_firstKeys _
    exact hbd.sublist ((List.filter_sublist _).map _)
  exact sorted_dates_of_insertionSort _ hnd

/-- C8: the end-to-end example — records (CA, 2020, 1, NDVI 0.2),
(CA, 2020, 1, NDVI 0.4), (NY, 2020, 1, NDVI 0.9) aggregate to exactly
the mapping CA to 0.3 and NY to 0.9. -/
theorem valuesByState_end_to_end_example :
    valuesByState rowsCANY "NDVI" 2020 1 =
      [("CA", some (3/10)), ("NY", some (9/10))] := by
  with_unfolding_all decide

/-- C9: the classifier's bin index — d3.bisectRight of the value into the
ascending thresholds, as used by scaleThreshold — is monotone in the value. -/
theorem bisectRight_mono (domain : List ℚ) (a b : ℚ) (hab : a ≤ b) :
    bisectRight domain a ≤ bisectRight domain b :=
  List.countP_mono_left fun _ _ ht =>
    decide_eq_true (le_trans (of_decide_eq_true ht) hab)

/-- C9 witness: a concrete monotonicity instance on the thresholds
[1, 2, 3]. -/
theorem bisectRight_mono_witness :
    bisectRight [1, 2, 3] 1 ≤ bisectRight [1, 2, 3] (5/2) :=
  bisectRight_mono [1, 2, 3] 1 (5/2) (by with_unfolding_all decide)

/-- C10: filtering by a state name that occurs in no record empties the store
before grouping, so the series is empty (no error, no points). -/
theorem buildSeriesForState_unknown_state (rows : List Record) (field : String)
    (st : String) (h : ∀ r ∈ rows, r.state ≠ st) :
    buildSeriesForState rows field (some st) = [] := by
  have hf : rows.filter (statePredicate (some st)) = [] := by
    rw [List.filter_eq_nil_iff]
    intro r hr
    simp only [statePredicate, beq_iff_eq]
    exact h r hr
  simp [buildSeriesForState, hf, d3rollup, firstKeys, List.insertionSort]

/-- C10 witness: the example store holds only CA and NY records, so the
Texas series is empty. -/
theorem buildSeriesForState_unknown_state_witness :
    buildSeriesForState rowsCANY "NDVI" (some "Texas") = [] :=
  buildSeriesForState_unknown_state rowsCANY "NDVI" "Texas"
    (by with_unfolding_all decide)
